import Mathlib

/-!
Verification of the mongore object-document mapper against its specification.

The development shallowly embeds the JavaScript source:

* a `Value` type models the JavaScript values that flow through the field
  descriptors and the instance wrapper (primitives, arrays, plain objects,
  dates and model instances);
* each field descriptor variant's `clean` / `isEqual` / default is translated
  into a Lean function over `Value` (file `src/fields/*`, plus the unnamed
  parts holding the boolean, choice and foreign-key fields);
* the instance wrapper's dirty tracking, `toDocument`, `save`, `delete` and
  the load-completion logic (`src/model_instance_wrapper.js`) become pure
  state-transition functions over a `Wrapper` record; storage requests are
  reified as data so that theorems can speak about which request a call
  issues;
* the generated property setter and the `Model` constructor
  (`src/model.js`) are translated as `setterAssign` and `constructModel`.

Fallible JavaScript code (thrown `ValidationError` / `TypeError`) is modelled
with `Except String`.
-/

namespace Mongore

/-- A JavaScript value as used by mongore: `undefined`, `null`, booleans,
numbers (claims only exercise integral values, so `Int` suffices), strings,
`Date` objects (as timestamps), arrays, plain objects (insertion-ordered
key/value lists, mirroring JS enumeration order for non-integer keys), and
model instances.  A model instance is represented by the name of its model
class together with the value of its wrapper's `_id` field (`Value.undef`
when no primary key has been assigned yet). -/
inductive Value where
  | undef : Value
  | null : Value
  | bool : Bool → Value
  | num : Int → Value
  | str : String → Value
  | date : Int → Value
  | list : List Value → Value
  | dict : List (String × Value) → Value
  | inst : String → Value → Value

/-- JavaScript truthiness: `undefined`, `null`, `false`, `0`, and the empty
string are falsy; every object (array, plain object, date, model instance) is
truthy. -/
def jsTruthy : Value → Bool
  | .undef => false
  | .null => false
  | .bool b => b
  | .num n => n != 0
  | .str s => !s.isEmpty
  | .date _ => true
  | .list _ => true
  | .dict _ => true
  | .inst _ _ => true

/-- JavaScript `a || b`. -/
def jsOr (a b : Value) : Value :=
  if jsTruthy a then a else b

/-- JavaScript strict equality `===` on the values the source compares.
Primitives compare by value.  Strict equality on two object references
(arrays, plain objects, dates, model instances) is reference identity in
JavaScript; the embedding has value semantics and cannot observe identity, so
it conservatively returns `false` for object operands — no claim compares an
object reference with itself via `===`. -/
def jsStrictEq : Value → Value → Bool
  | .undef, .undef => true
  | .null, .null => true
  | .bool a, .bool b => a == b
  | .num a, .num b => a == b
  | .str a, .str b => a == b
  | _, _ => false

/-- Whether a value is `null` or `undefined` (i.e. loosely equal to `null`,
the `value == null` test used by the foreign-key `isEqual`). -/
def jsIsNullish : Value → Bool
  | .undef => true
  | .null => true
  | _ => false

/-- JavaScript loose equality `a == b` restricted to the case where at least
one operand is nullish: `null` and `undefined` are loosely equal to each
other and to nothing else. -/
def jsLooseEqNullish (a b : Value) : Bool :=
  jsIsNullish a && jsIsNullish b

/-- JavaScript `String(v)` conversion (used by `RegExp.test` coercion and by
template literals).  Arrays stringify by joining elements, plain objects to
the `[object Object]` tag; only the `null`/string cases are exercised by the
claims. -/
def jsToString : Value → String
  | .undef => "undefined"
  | .null => "null"
  | .bool b => if b then "true" else "false"
  | .num n => toString n
  | .str s => s
  | .date t => "Date(" ++ toString t ++ ")"
  | .list _ => "Array"
  | .dict _ => "[object Object]"
  | .inst c _ => "[object " ++ c ++ "]"

/-- JavaScript `v.toString()`: like `String(v)` except that calling a method
on `null` or `undefined` throws a `TypeError`. -/
def jsToStringMethod : Value → Except String String
  | .undef => .error "TypeError: cannot read toString of undefined"
  | .null => .error "TypeError: cannot read toString of null"
  | v => .ok (jsToString v)

/-- Read a key of an ordered key/value list, `none` when absent (first
occurrence wins, keys are unique in all states the code builds). -/
def getEntry {α : Type} (l : List (String × α)) (k : String) : Option α :=
  match l with
  | [] => none
  | (k', v) :: rest => if k' == k then some v else getEntry rest k

/-- JavaScript property read `obj[k]`: the stored value, or `undefined` when
the key is absent. -/
def getField (l : List (String × Value)) (k : String) : Value :=
  (getEntry l k).getD Value.undef

/-- JavaScript property write `obj[k] = v`: overwrite in place when the key
exists (keeping its position in enumeration order), append otherwise. -/
def setKey (l : List (String × Value)) (k : String) (v : Value) :
    List (String × Value) :=
  match l with
  | [] => [(k, v)]
  | (k', v') :: rest =>
      if k' == k then (k', v) :: rest else (k', v') :: setKey rest k v

/-- `Set.add` on the dirty-field set, represented as an insertion-ordered
duplicate-free list of names. -/
def dirtyAdd (dirty : List String) (name : String) : List String :=
  if dirty.contains name then dirty else dirty ++ [name]

/-- Whether an `Except` computation succeeded. -/
def isOkE {α : Type} (e : Except String α) : Bool :=
  match e with
  | .ok _ => true
  | .error _ => false

mutual

/-- `Field.cloneData` (src/fields/field.js): `null` is returned as `null`,
objects are deep-copied through a JSON round trip, primitives are returned
as-is.  On the JSON-safe data that reaches it (field defaults) the JSON round
trip is a deep structural copy, which in a value semantics is the structural
map below. -/
def cloneData : Value → Value
  | .null => .null
  | .list xs => .list (cloneDataList xs)
  | .dict es => .dict (cloneDataDict es)
  | v => v

/-- JSON deep copy of an array's elements. -/
def cloneDataList : List Value → List Value
  | [] => []
  | x :: xs => cloneData x :: cloneDataList xs

/-- JSON deep copy of an object's entries. -/
def cloneDataDict : List (String × Value) → List (String × Value)
  | [] => []
  | (k, v) :: es => (k, cloneData v) :: cloneDataDict es

end

/-! ### A small regular-expression engine

`EmailField` (src/fields/email_field.js) validates with the anchored pattern
regular expression for emails.  The engine below implements classical regex
matching via Brzozowski derivatives; on an anchored pattern this coincides
with JavaScript's `RegExp.test`. -/

/-- Regular expressions over characters, with character predicates. -/
inductive Rx where
  | fail : Rx
  | eps : Rx
  | pred : (Char → Bool) → Rx
  | cat : Rx → Rx → Rx
  | alt : Rx → Rx → Rx
  | star : Rx → Rx

/-- Whether a regex accepts the empty string. -/
def rxNullable : Rx → Bool
  | .fail => false
  | .eps => true
  | .pred _ => false
  | .cat a b => rxNullable a && rxNullable b
  | .alt a b => rxNullable a || rxNullable b
  | .star _ => true

/-- Brzozowski derivative of a regex by one character. -/
def rxDeriv : Rx → Char → Rx
  | .fail, _ => .fail
  | .eps, _ => .fail
  | .pred p, c => if p c then .eps else .fail
  | .cat a b, c =>
      if rxNullable a then .alt (.cat (rxDeriv a c) b) (rxDeriv b c)
      else .cat (rxDeriv a c) b
  | .alt a b, c => .alt (rxDeriv a c) (rxDeriv b c)
  | .star a, c => .cat (rxDeriv a c) (.star a)

/-- Whole-string regex match via iterated derivatives. -/
def rxMatch (r : Rx) : List Char → Bool
  | [] => rxNullable r
  | c :: rest => rxMatch (rxDeriv r c) rest

/-- JavaScript `\w`: ASCII letters, digits and underscore. -/
def isWordChar (c : Char) : Bool :=
  c.isAlphanum || c == '_'

/-- `\w+`. -/
def rxWordPlus : Rx :=
  .cat (.pred isWordChar) (.star (.pred isWordChar))

/-- `([.-]?\w+)*` prefixed by `\w+`, i.e. the name part of the email
pattern. -/
def rxNamePart : Rx :=
  .cat rxWordPlus
    (.star (.cat (.alt (.pred (fun c => c == '.' || c == '-')) .eps) rxWordPlus))

/-- One top-level-domain group of the email pattern, a dot followed by two or
three word characters. -/
def rxTld : Rx :=
  .cat (.pred (fun c => c == '.'))
    (.cat (.pred isWordChar) (.cat (.pred isWordChar) (.alt (.pred isWordChar) .eps)))

/-- The anchored email pattern of src/fields/email_field.js: name part, `@`,
domain name part, then one or more dot-separated TLD groups of 2-3 word
characters. -/
def emailRE : Rx :=
  .cat rxNamePart
    (.cat (.pred (fun c => c == '@'))
      (.cat rxNamePart (.cat rxTld (.star rxTld))))

/-- `validateEmail` (src/fields/email_field.js): `emailRE.test(email)`, which
coerces its argument to a string and tests the anchored pattern. -/
def validateEmail (email : Value) : Bool :=
  rxMatch emailRE (jsToString email).data

/-! ### Field descriptors (src/fields/*)

Each descriptor is embedded as a record of its capability functions.  `clean`
receives the owning instance's field map (the source-alias feature of the base
class reads aliased attributes off the owner) and the raw value, and returns
the cleaned value or a raised error. -/

/-- A field descriptor: `clean` (validate-and-normalize before a write),
`isEqual` (the change test used by the generated setters) and the stored
`_default` value.  The class-side metadata (`index`, `unique`, validator
fragments) is not needed by any claim. -/
structure FieldDescr where
  clean : List (String × Value) → Value → Except String Value
  isEqual : Value → Value → Bool
  dflt : Value

/-- The `default` getter of the base class: a `cloneData` copy of the stored
`_default`. -/
def descrDefault (d : FieldDescr) : Value :=
  cloneData d.dflt

/-- `Field.clean` of the base class: with a `source` alias the raw value is
ignored and the aliased attribute of the owner is read instead; otherwise the
value passes through. -/
def baseClean (source : Option String) (owner : List (String × Value))
    (value : Value) : Value :=
  match source with
  | some s => getField owner s
  | none => value

/-- Options of the generic base field (src/fields/field.js). -/
structure GenericCfg where
  source : Option String := none
  dflt : Option Value := none

/-- The generic field descriptor: base `clean`, `===` equality, type default
`null`. -/
def mkGenericField (cfg : GenericCfg) : FieldDescr where
  clean := fun owner v => .ok (baseClean cfg.source owner v)
  isEqual := jsStrictEq
  dflt := cfg.dflt.getD .null

/-- Options of the boolean field (src/unnamed boolean field part). -/
structure BooleanCfg where
  source : Option String := none
  canBeNull : Bool := false
  dflt : Option Value := none

/-- `BooleanField.clean`: pass `null` through when allowed, otherwise coerce
with JavaScript truthiness. -/
def booleanClean (cfg : BooleanCfg) (owner : List (String × Value))
    (value : Value) : Except String Value :=
  let v := baseClean cfg.source owner value
  if jsStrictEq v .null && cfg.canBeNull then .ok v
  else .ok (.bool (jsTruthy v))

/-- The boolean field descriptor; type default `false`. -/
def mkBooleanField (cfg : BooleanCfg) : FieldDescr where
  clean := booleanClean cfg
  isEqual := jsStrictEq
  dflt := cfg.dflt.getD (.bool false)

/-- Options of the numeric field (src/fields numeric part).  The `parser`
(JavaScript `parseFloat` / `parseInt`, both language builtins) is abstracted
as a function returning `none` for NaN results. -/
structure NumericCfg where
  source : Option String := none
  canBeNull : Bool := false
  min : Option Int := none
  max : Option Int := none
  parser : Value → Option Int
  dflt : Option Value := none

/-- `NumericField.clean`: pass `null` through when allowed; otherwise parse,
fail on NaN, then enforce the configured bounds. -/
def numericClean (cfg : NumericCfg) (owner : List (String × Value))
    (value : Value) : Except String Value :=
  let v := baseClean cfg.source owner value
  if jsStrictEq v .null && cfg.canBeNull then .ok v
  else
    match cfg.parser v with
    | none =>
        .error ("Invalid numeric value " ++ jsToString v ++ ": not a valid number.")
    | some n =>
        match cfg.min with
        | some lo =>
            if n < lo then
              .error ("Invalid numeric value: may not be smaller than minimum.")
            else
              match cfg.max with
              | some hi =>
                  if hi < n then
                    .error ("Invalid numeric value: may not be larger than maximum.")
                  else .ok (.num n)
              | none => .ok (.num n)
        | none =>
            match cfg.max with
            | some hi =>
                if hi < n then
                  .error ("Invalid numeric value: may not be larger than maximum.")
                else .ok (.num n)
            | none => .ok (.num n)

/-- The numeric field descriptor; type default `0`. -/
def mkNumericField (cfg : NumericCfg) : FieldDescr where
  clean := numericClean cfg
  isEqual := jsStrictEq
  dflt := cfg.dflt.getD (.num 0)

/-- Options of the string field (src/fields string part). -/
structure StringCfg where
  source : Option String := none
  canBeNull : Bool := false
  maxLength : Option Nat := none
  minLength : Option Nat := none
  dflt : Option Value := none

/-- `StringField.clean`: pass `null` through when allowed; otherwise convert
with `toString()` (which throws on `null`/`undefined`) and enforce the length
bounds.  The `minLength` test is embedded exactly as written in the source,
which compares with `>` (the same direction as `maxLength`). -/
def stringClean (cfg : StringCfg) (owner : List (String × Value))
    (value : Value) : Except String Value := do
  let v := baseClean cfg.source owner value
  if jsStrictEq v .null && cfg.canBeNull then
    return v
  else
    let s ← jsToStringMethod v
    match cfg.maxLength with
    | some m =>
        if s.length > m then
          .error ("Invalid string value " ++ s ++ ": may not be longer than maxLength.")
        else
          match cfg.minLength with
          | some m' =>
              if s.length > m' then
                .error ("Invalid string value " ++ s ++ ": may not be shorter than minLength.")
              else .ok (.str s)
          | none => .ok (.str s)
    | none =>
        match cfg.minLength with
        | some m' =>
            if s.length > m' then
              .error ("Invalid string value " ++ s ++ ": may not be shorter than minLength.")
            else .ok (.str s)
        | none => .ok (.str s)

/-- The string field descriptor; type default `""`. -/
def mkStringField (cfg : StringCfg) : FieldDescr where
  clean := stringClean cfg
  isEqual := jsStrictEq
  dflt := cfg.dflt.getD (.str "")

/-- `EmailField.clean` (src/fields/email_field.js): the string field's clean
followed by the email-pattern test.  Note the pattern test is applied to
whatever the string clean returned, including a passed-through `null`. -/
def emailClean (cfg : StringCfg) (owner : List (String × Value))
    (value : Value) : Except String Value := do
  let v ← stringClean cfg owner value
  if validateEmail v then .ok v
  else
    .error ("Invalid email value " ++ jsToString v ++ ": not a valid email pattern.")

/-- The email field descriptor (inherits the string field's options and
defaults). -/
def mkEmailField (cfg : StringCfg) : FieldDescr where
  clean := emailClean cfg
  isEqual := jsStrictEq
  dflt := cfg.dflt.getD (.str "")

/-- Options of the choice field (src/unnamed choice field part).  `choices`
keeps the caller-supplied values; membership is tested against the cleaned
string with JavaScript `Set.has` (same-value-zero) semantics. -/
structure ChoiceCfg where
  source : Option String := none
  canBeNull : Bool := false
  choices : List Value
  dflt : Option Value := none

/-- `ChoiceField.clean`: pass `null` through when allowed; otherwise convert
with `toString()` and require membership in the choice set. -/
def choiceClean (cfg : ChoiceCfg) (owner : List (String × Value))
    (value : Value) : Except String Value := do
  let v := baseClean cfg.source owner value
  if jsStrictEq v .null && cfg.canBeNull then
    return v
  else
    let s ← jsToStringMethod v
    if cfg.choices.any (fun c => jsStrictEq (.str s) c) then .ok (.str s)
    else .error ("Invalid choice value " ++ s ++ ": value does not appear in possible choices.")

/-- The choice field descriptor; type default `null`. -/
def mkChoiceField (cfg : ChoiceCfg) : FieldDescr where
  clean := choiceClean cfg
  isEqual := jsStrictEq
  dflt := cfg.dflt.getD .null

/-- Options of the date field (src/fields/date_field.js). -/
structure DateCfg where
  source : Option String := none
  autoNow : Bool := false
  dflt : Option Value := none

/-- `DateField.clean`: `null` always passes (converted to the current time
when `autoNow`); any other non-`Date` value fails.  The ambient clock
(`new Date()`) is passed explicitly as `now`. -/
def dateClean (cfg : DateCfg) (now : Int) (owner : List (String × Value))
    (value : Value) : Except String Value :=
  let v := baseClean cfg.source owner value
  if jsStrictEq v .null then
    .ok (if cfg.autoNow then .date now else v)
  else
    match v with
    | .date t => .ok (.date t)
    | other => .error ("Invalid date value " ++ jsToString other ++ ": not a date.")

/-- Remove duplicates as `Array.from(new Set(xs))` does: keep the first
occurrence, comparing with same-value-zero (on the primitive values the
claims exercise this is strict equality; distinct object references never
collapse, matching JavaScript). -/
def dedupeSVZ : List Value → List Value
  | [] => []
  | x :: xs =>
      let rest := (dedupeSVZ xs).filter (fun y => !(jsStrictEq x y))
      x :: rest

/-- Options of the list field (src/fields/list_field.js). -/
structure ListCfg where
  source : Option String := none
  maxItems : Option Nat := none
  itemsType : Option FieldDescr := none
  removeDuplicates : Bool := false
  dflt : Option Value := none

/-- Clean every element of a list through the configured element
descriptor. -/
def cleanItems (d : FieldDescr) (owner : List (String × Value)) :
    List Value → Except String (List Value)
  | [] => .ok []
  | x :: xs =>
      match d.clean owner x with
      | .error e => .error e
      | .ok cx =>
          match cleanItems d owner xs with
          | .error e => .error e
          | .ok rest => .ok (cx :: rest)

/-- `ListField.clean`: fail unless the value is an array (note: there is no
`null` handling, so `null` is rejected like any non-array); fail when the
length exceeds `maxItems`; clean elements through the optional element
descriptor; deduplicate when configured. -/
def listClean (cfg : ListCfg) (owner : List (String × Value))
    (value : Value) : Except String Value :=
  let v := baseClean cfg.source owner value
  match v with
  | .list xs =>
      match cfg.maxItems with
      | some m =>
          if xs.length > m then
            .error ("Invalid list value: list is too long.")
          else
            match cfg.itemsType with
            | some d =>
                match cleanItems d owner xs with
                | .error e => .error e
                | .ok ys =>
                    .ok (.list (if cfg.removeDuplicates then dedupeSVZ ys else ys))
            | none =>
                .ok (.list (if cfg.removeDuplicates then dedupeSVZ xs else xs))
      | none =>
          match cfg.itemsType with
          | some d =>
              match cleanItems d owner xs with
              | .error e => .error e
              | .ok ys =>
                  .ok (.list (if cfg.removeDuplicates then dedupeSVZ ys else ys))
          | none =>
              .ok (.list (if cfg.removeDuplicates then dedupeSVZ xs else xs))
  | other => .error ("Invalid list value " ++ jsToString other ++ ": not a list.")

/-- The list field descriptor; type default `[]`. -/
def mkListField (cfg : ListCfg) : FieldDescr where
  clean := listClean cfg
  isEqual := jsStrictEq
  dflt := cfg.dflt.getD (.list [])

/-- Options of the dictionary field (src/fields/dictionary_field.js).  The
registration-time check that a schema requires an explicit default is a
constructor precondition and not needed by any claim. -/
structure DictCfg where
  source : Option String := none
  schema : Option (List (String × FieldDescr)) := none
  dflt : Option Value := none

/-- `arraysEqual` (src/unnamed utils part): equal length and pairwise equal
elements.  The source iterates the indices downward; the direction of
iteration does not change the conjunction. -/
def arraysEqual (arr1 arr2 : List String) : Bool :=
  if arr1.length != arr2.length then false
  else (List.zip arr1 arr2).all (fun p => p.1 == p.2)

/-- The value-cleaning loop of `DictionaryField.clean`: each entry of the
value is cleaned by the schema descriptor of the same key (looking up a key
the schema lacks would be a `TypeError`; unreachable after the key check). -/
def cleanEntries (schema : List (String × FieldDescr))
    (owner : List (String × Value)) :
    List (String × Value) → Except String (List (String × Value))
  | [] => .ok []
  | (k, v) :: rest =>
      match getEntry schema k with
      | none => .error "TypeError: schema has no descriptor for key"
      | some d =>
          match d.clean owner v with
          | .error e => .error e
          | .ok cv =>
              match cleanEntries schema owner rest with
              | .error e => .error e
              | .ok tail => .ok ((k, cv) :: tail)

/-- `DictionaryField.clean`: the `value.constructor !== Object` test throws a
`TypeError` on `null`/`undefined` (there is no null handling in this variant)
and rejects every non-plain-object; with a schema, the value's key list must
satisfy `arraysEqual` against the schema's key list, then every entry is
cleaned by its schema descriptor. -/
def dictionaryClean (cfg : DictCfg) (owner : List (String × Value))
    (value : Value) : Except String Value :=
  let v := baseClean cfg.source owner value
  match v with
  | .null => .error "TypeError: cannot read constructor of null"
  | .undef => .error "TypeError: cannot read constructor of undefined"
  | .dict entries =>
      match cfg.schema with
      | none => .ok (.dict entries)
      | some schema =>
          if arraysEqual (entries.map Prod.fst) (schema.map Prod.fst) then
            match cleanEntries schema owner entries with
            | .error e => .error e
            | .ok newDict => .ok (.dict newDict)
          else .error "Invalid dictionary value: value keys do not match schema."
  | other => .error ("Invalid dictionary value " ++ jsToString other ++ ": not a dictionary.")

/-- The dictionary field descriptor; type default `{}`. -/
def mkDictionaryField (cfg : DictCfg) : FieldDescr where
  clean := dictionaryClean cfg
  isEqual := jsStrictEq
  dflt := cfg.dflt.getD (.dict [])

/-- Options of the foreign-key field (src/unnamed foreign-key part). -/
structure FkCfg where
  source : Option String := none
  model : String
  canBeNull : Bool := false
  dflt : Option Value := none

/-- `ForeignKeyField.clean`: pass `null` through when allowed; otherwise the
value must be an instance of the referenced model class with an assigned
primary key, and the key replaces the object reference. -/
def fkClean (cfg : FkCfg) (owner : List (String × Value))
    (value : Value) : Except String Value :=
  let v := baseClean cfg.source owner value
  if jsStrictEq v .null && cfg.canBeNull then .ok v
  else
    match v with
    | .inst c id =>
        if c != cfg.model then
          .error "Invalid foreign key value: value not an instance of the referenced model."
        else if jsStrictEq id .undef then
          .error "Invalid foreign key value: the referenced object has no id yet."
        else .ok id
    | other =>
        .error ("Invalid foreign key value " ++ jsToString other ++
          ": value not an instance of the referenced model.")

/-- `ForeignKeyField.isEqual`, embedded exactly as written in the source:

* when either side is loosely `null` it returns `a != b`;
* when either side lacks a `mongore` wrapper (is not a model instance) it
  returns `false`;
* otherwise it returns `a.mongore.id !== b.mongore.id`.

(The primary keys compared are primitives, where `!==` is value
inequality.) -/
def fkIsEqual (a b : Value) : Bool :=
  if jsIsNullish a || jsIsNullish b then !(jsLooseEqNullish a b)
  else
    match a, b with
    | .inst _ ia, .inst _ ib => !(jsStrictEq ia ib)
    | _, _ => false

/-- The foreign-key field descriptor; type default `null`; `cloneData` is
overridden to the identity in the source, which on this embedding's defaults
coincides with the base behavior. -/
def mkForeignKeyField (cfg : FkCfg) : FieldDescr where
  clean := fkClean cfg
  isEqual := fkIsEqual
  dflt := cfg.dflt.getD .null

/-- The per-model field registry: field name to descriptor (the class
wrapper's `getFieldDescriptor`, `undefined` for unregistered names such as
the bookkeeping fields). -/
def Registry : Type :=
  String → Option FieldDescr

/-- Build a registry from the declaration-ordered field list of
`buildModel`. -/
def regOf (l : List (String × FieldDescr)) : Registry :=
  fun k => getEntry l k

/-! ### The instance wrapper (src/model_instance_wrapper.js) and the
generated accessors (src/model.js)

`Wrapper` carries the mutable state of `ModelInstanceWrapper`: the `_fields`
map, the `_dirtyFields` set (insertion-ordered), the two presence flags, the
last-load time and the stored one-shot callback `_onFirstLoad` (callbacks are
identified by numbers; `fired` is an observation log recording every
invocation of a first-load callback, so that theorems can state when the
callback ran). -/
structure Wrapper where
  fields : List (String × Value) := []
  dirty : List String := []
  isLoadedFromDB : Bool := false
  isSavedToDB : Bool := false
  lastLoadTime : Value := .null
  onFirstLoadCb : Option Nat := none
  fired : List Nat := []

/-- The freshly constructed wrapper: empty field map, empty dirty set, both
presence flags down, no stored callback. -/
def initWrapper : Wrapper :=
  {}

/-- `isDirty`: whether the dirty set is non-empty. -/
def isDirty (w : Wrapper) : Bool :=
  !w.dirty.isEmpty

/-- `isInDB`: loaded from or ever saved to the database. -/
def isInDB (w : Wrapper) : Bool :=
  w.isLoadedFromDB || w.isSavedToDB

/-- The generated property setter installed by `buildModel` (src/model.js):
if the descriptor's `isEqual` says the incoming value equals the currently
stored one, do nothing; otherwise store the raw value and mark the field
dirty. -/
def setterAssign (d : FieldDescr) (w : Wrapper) (name : String) (v : Value) :
    Wrapper :=
  if d.isEqual v (getField w.fields name) then w
  else { w with fields := setKey w.fields name v, dirty := dirtyAdd w.dirty name }

/-- The `Model` constructor (src/model.js): starting from the fresh wrapper,
assign every registered field its descriptor default (via the `default`
getter, i.e. a `cloneData` copy), in declaration order, through the generated
setter. -/
def constructModel (reg : List (String × FieldDescr)) : Wrapper :=
  reg.foldl (fun w p => setterAssign p.2 w p.1 (descrDefault p.2)) initWrapper

/-- The field-serialization loop of `toDocument`: iterate the `_fields`
entries in order; with `dirtyOnly`, skip fields outside the dirty set; clean
each value through its registered descriptor (values without a descriptor,
such as the bookkeeping fields, are copied raw); any raised error aborts the
whole loop. -/
def cleanFields (reg : Registry) (owner : List (String × Value))
    (dirty : List String) (dirtyOnly : Bool) :
    List (String × Value) → Except String (List (String × Value))
  | [] => .ok []
  | (k, v) :: rest =>
      if dirtyOnly && !dirty.contains k then
        cleanFields reg owner dirty dirtyOnly rest
      else
        match (match reg k with
               | some d => d.clean owner v
               | none => .ok v) with
        | .error e => .error e
        | .ok cv =>
            match cleanFields reg owner dirty dirtyOnly rest with
            | .error e => .error e
            | .ok tail => .ok ((k, cv) :: tail)

/-- `(x || 0) + 1` on the stored `_dbObjectVersion` (always a number or
absent, so the non-numeric branch is unreachable). -/
def versionBump (v : Value) : Value :=
  match jsOr v (.num 0) with
  | .num n => .num (n + 1)
  | _ => Value.undef

/-- `toDocument(dirtyOnly)`: serialize the (dirty) fields through their
descriptors, then stamp the three bookkeeping fields — the fresh last-update
time, the preserved-or-fresh creation time, and the incremented version
counter.  `now` is the ambient `new Date()`. -/
def toDocument (reg : Registry) (w : Wrapper) (dirtyOnly : Bool) (now : Value) :
    Except String (List (String × Value)) :=
  match cleanFields reg w.fields w.dirty dirtyOnly w.fields with
  | .error e => .error e
  | .ok ret =>
      let r1 := setKey ret "_dbLastUpdateTime" now
      let r2 := setKey r1 "_dbCreationTime"
        (jsOr (getField w.fields "_dbCreationTime") now)
      let r3 := setKey r2 "_dbObjectVersion"
        (versionBump (getField w.fields "_dbObjectVersion"))
      .ok r3

/-- `_afterSaveToDB(data)`: mark saved, clear the dirty set, and mirror the
three bookkeeping fields from `data` — which, in `save`, is the storage
driver's result object delivered to the success callback (property reads of
keys the result lacks yield `undefined`). -/
def afterSaveToDB (w : Wrapper) (data : List (String × Value)) : Wrapper :=
  let f1 := setKey w.fields "_dbCreationTime"
    (jsOr (getField data "_dbCreationTime") (getField w.fields "_dbCreationTime"))
  let f2 := setKey f1 "_dbLastUpdateTime" (getField data "_dbLastUpdateTime")
  let f3 := setKey f2 "_dbObjectVersion" (getField data "_dbObjectVersion")
  { w with isSavedToDB := true, dirty := [], fields := f3 }

/-- A storage write request issued by `save`: an `insertOne` carrying the
full document, or an `updateOne` carrying the primary-key filter and the
document. -/
inductive SaveEffect where
  | insertReq : List (String × Value) → SaveEffect
  | updateReq : Value → List (String × Value) → SaveEffect

/-- One complete `save(onSuccess, onError, forceSave)` round trip, for a
storage request (if any is issued) that completes successfully with result
object `meta`.  Returns the post-call wrapper, the issued request (`none`
when the save skipped, matching the not-dirty-and-not-forced branch), and the
synchronously raised error if serialization failed.  The synchronous save
path mutates no wrapper state — all mutation lives in `_afterSaveToDB`, which
runs in the success continuation — so on a raised error the wrapper is
returned unchanged, exactly as in the source.  The base-class
`beforeSaveToDB` hook is a no-op. -/
def saveRun (reg : Registry) (w : Wrapper) (forceSave : Bool) (now : Value)
    (meta : List (String × Value)) :
    Wrapper × Option SaveEffect × Option String :=
  if isInDB w then
    if forceSave || isDirty w then
      match toDocument reg w true now with
      | .error e => (w, none, some e)
      | .ok doc =>
          (afterSaveToDB w meta,
           some (.updateReq (getField w.fields "_id") doc), none)
    else (w, none, none)
  else
    match toDocument reg w false now with
    | .error e => (w, none, some e)
    | .ok doc => (afterSaveToDB w meta, some (.insertReq doc), none)

/-- The document carried by an optionally issued save request. -/
def effectDoc : Option SaveEffect → Option (List (String × Value))
  | some (.insertReq d) => some d
  | some (.updateReq _ d) => some d
  | none => none

/-- One successful instance-level `delete()` round trip: a `deleteOne`
request filtered on the primary key is issued; its success continuation runs
only the base-class `afterDeletedFromDB` hook (a no-op) and the caller's
callback — no wrapper state is read or written on either path, exactly as in
the source.  Returns the post-call wrapper and the filter value used. -/
def deleteRun (w : Wrapper) : Wrapper × Value :=
  (w, getField w.fields "_id")

/-- The property read `this.onFirstLoad` performed by `_afterLoadFromDB`.
The wrapper class defines the member `_onFirstLoad` and the accessor pair
named `onLoaded`, but no property named `onFirstLoad`, so this read always
yields `undefined`. -/
def onFirstLoadLookup (_w : Wrapper) : Value :=
  Value.undef

/-- `_afterLoadFromDB`: record whether this is the first hydration, raise the
loaded flag, reset the dirty set, refresh the last-load time, run the
base-class `afterLoadedFromDB` hook (a no-op), then fire the first-load
callback when this was the first hydration and `this.onFirstLoad` is truthy.
Since that property read yields `undefined`, the guard never holds (reaching
the call would in fact invoke `undefined` and raise a `TypeError`). -/
def afterLoadFromDB (w : Wrapper) (now : Value) : Wrapper :=
  let firstLoad := !w.isLoadedFromDB
  let w' := { w with isLoadedFromDB := true, dirty := [], lastLoadTime := now }
  if firstLoad && jsTruthy (onFirstLoadLookup w') then
    { w' with fired := w'.fired ++ w'.onFirstLoadCb.toList }
  else w'

/-- The `onLoaded` setter: store the callback in `_onFirstLoad`; when the
instance is already loaded, invoke it immediately. -/
def setOnLoaded (w : Wrapper) (cb : Nat) : Wrapper :=
  let w' := { w with onFirstLoadCb := some cb }
  if w'.isLoadedFromDB then { w' with fired := w'.fired ++ [cb] } else w'

/-! ### Concrete models used by the theorems -/

/-- A generic base field with all options defaulted. -/
def exGeneric : FieldDescr :=
  mkGenericField {}

/-- A string field with all options defaulted. -/
def exString : FieldDescr :=
  mkStringField {}

/-- A string field with `maxLength` 2. -/
def exStringMax2 : FieldDescr :=
  mkStringField { maxLength := some 2 }

/-- A foreign-key field referencing the model class `User`. -/
def exFkUser : FieldDescr :=
  mkForeignKeyField { model := "User" }

/-- A registry with a string `_id` field and a string `name` field. -/
def exReg : Registry :=
  regOf [("_id", exString), ("name", exString)]

/-- A two-field declaration list: a generic `data` field and a string `name`
field. -/
def exRegPair : List (String × FieldDescr) :=
  [("data", exGeneric), ("name", exString)]

/-- A wrapper already present in storage (saved once, nothing dirty). -/
def exSaved : Wrapper :=
  { fields := [("_id", .str "i1"), ("name", .str "rex"),
      ("_dbCreationTime", .date 10), ("_dbLastUpdateTime", .date 10),
      ("_dbObjectVersion", .num 1)],
    dirty := [], isSavedToDB := true }

/-- The document a forced save of `exSaved` at time 20 sends to storage. -/
def exForcedDoc : List (String × Value) :=
  [("_dbLastUpdateTime", .date 20), ("_dbCreationTime", .date 10),
   ("_dbObjectVersion", .num 2)]

/-- A freshly built, never persisted wrapper with both fields assigned (and
therefore dirty). -/
def exFresh : Wrapper :=
  { fields := [("_id", .str "rex"), ("name", .str "Rex")],
    dirty := ["_id", "name"] }

/-- A storage-driver result object: insert/update result metadata, which does
not echo the saved document (in particular it carries none of the three
bookkeeping fields). -/
def exMeta : List (String × Value) :=
  [("insertedCount", .num 1)]

/-- The document the first save of `exFresh` at time 100 inserts. -/
def exInsertDoc : List (String × Value) :=
  [("_id", .str "rex"), ("name", .str "Rex"), ("_dbLastUpdateTime", .date 100),
   ("_dbCreationTime", .date 100), ("_dbObjectVersion", .num 1)]

/-- A two-key dictionary schema: generic `a`, string `b`. -/
def exSchemaAB : List (String × FieldDescr) :=
  [("a", exGeneric), ("b", exString)]

/-- A dictionary field configured with the schema `exSchemaAB`. -/
def exDictCfg : DictCfg :=
  { schema := some exSchemaAB }

/-- A wrapper whose `owner` field currently holds a `User` instance with
primary key `"k"`. -/
def exFkWrapper : Wrapper :=
  { fields := [("owner", .inst "User" (.str "k"))] }

/-- A registry with a single length-2-bounded string field `name`. -/
def exRegMax : Registry :=
  regOf [("name", exStringMax2)]

/-- A never-persisted wrapper holding a too-long value for `name`. -/
def exTooLong : Wrapper :=
  { fields := [("name", .str "abcd")], dirty := ["name"] }

/-- The error the bounded string field raises on the value of `exTooLong`. -/
def exLenErr : String :=
  "Invalid string value abcd: may not be longer than maxLength."

/-- The computable success condition of the dictionary value-cleaning loop:
every entry's key has a schema descriptor and that descriptor's `clean`
accepts the entry's value. -/
def entriesCleanOk (schema : List (String × FieldDescr))
    (owner : List (String × Value)) (es : List (String × Value)) : Bool :=
  es.all (fun p =>
    match getEntry schema p.1 with
    | none => false
    | some d => isOkE (d.clean owner p.2))

/-! ### Helper lemmas -/

/-- Key lookup distributes over list append. -/
theorem getEntry_append {α : Type} (l1 l2 : List (String × α)) (k : String) :
    getEntry (l1 ++ l2) k =
      (match getEntry l1 k with
       | some v => some v
       | none => getEntry l2 k) := by
  induction l1 with
  | nil => simp [getEntry]
  | cons p rest ih =>
      obtain ⟨k', v⟩ := p
      by_cases h : k' == k <;> simp [getEntry, h, ih]

/-- Writing one key does not change the lookup of a different key. -/
theorem getEntry_setKey_ne (l : List (String × Value)) (k k' : String)
    (v : Value) (h : k' ≠ k) :
    getEntry (setKey l k v) k' = getEntry l k' := by
  induction l with
  | nil => simp [setKey, getEntry, Ne.symm h]
  | cons p rest ih =>
      obtain ⟨k1, v1⟩ := p
      by_cases h1 : k1 = k
      · subst h1
        simp [setKey, getEntry, Ne.symm h]
      · by_cases h2 : k1 = k'
        · subst h2
          simp [setKey, getEntry, h1]
        · simp [setKey, getEntry, h1, h2, ih]

/-- Writing an absent key appends it. -/
theorem setKey_of_getEntry_none (l : List (String × Value)) (k : String)
    (v : Value) (h : getEntry l k = none) : setKey l k v = l ++ [(k, v)] := by
  induction l with
  | nil => simp [setKey]
  | cons p rest ih =>
      obtain ⟨k1, v1⟩ := p
      by_cases h1 : k1 = k
      · subst h1
        simp [getEntry] at h
      · simp [getEntry, h1] at h
        simp [setKey, h1, ih h]

/-- In dirty-only mode, the serialization loop emits no key outside the dirty
set. -/
theorem cleanFields_dirtyOnly_not_mem (reg : Registry)
    (owner : List (String × Value)) (dirty : List String)
    (fs : List (String × Value)) (out : List (String × Value)) (k : String)
    (h : cleanFields reg owner dirty true fs = .ok out)
    (hk : dirty.contains k = false) : getEntry out k = none := by
  induction fs generalizing out with
  | nil =>
      simp [cleanFields] at h
      rw [h]
      simp [getEntry]
  | cons p rest ih =>
      obtain ⟨k1, v1⟩ := p
      unfold cleanFields at h
      by_cases h1 : dirty.contains k1
      · rw [h1] at h
        simp only [Bool.not_true, Bool.and_false, Bool.false_eq_true,
          if_false] at h
        rcases hc : (match reg k1 with
                     | some d => d.clean owner v1
                     | none => Except.ok v1) with e | cv
        · rw [hc] at h
          exact absurd h (by simp)
        · rw [hc] at h
          rcases hr : cleanFields reg owner dirty true rest with e | tail
          · rw [hr] at h
            exact absurd h (by simp)
          · rw [hr] at h
            simp only [Except.ok.injEq] at h
            rw [← h]
            have hne : k1 ≠ k := by
              intro hcon
              subst hcon
              rw [h1] at hk
              exact absurd hk (by simp)
            simp [getEntry, hne]
            exact ih tail hr
      · have h1' : dirty.contains k1 = false := eq_false_of_ne_true h1
        rw [h1'] at h
        simp only [Bool.not_false, Bool.and_true, if_true] at h
        exact ih out h

/-- In dirty-only mode, `toDocument` emits no non-bookkeeping key outside the
dirty set. -/
theorem toDocument_dirtyOnly_not_mem (reg : Registry) (w : Wrapper)
    (now : Value) (doc : List (String × Value)) (k : String)
    (h : toDocument reg w true now = .ok doc)
    (hk : w.dirty.contains k = false)
    (h1 : k ≠ "_dbLastUpdateTime")
    (h2 : k ≠ "_dbCreationTime")
    (h3 : k ≠ "_dbObjectVersion") : getEntry doc k = none := by
  unfold toDocument at h
  rcases hc : cleanFields reg w.fields w.dirty true w.fields with e | ret
  · rw [hc] at h
    exact absurd h (by simp)
  · rw [hc] at h
    simp only [Except.ok.injEq] at h
    rw [← h]
    rw [getEntry_setKey_ne _ _ _ _ h3, getEntry_setKey_ne _ _ _ _ h2,
      getEntry_setKey_ne _ _ _ _ h1]
    exact cleanFields_dirtyOnly_not_mem reg w.fields w.dirty w.fields ret k hc hk

/-- The constructor's default-installation loop: starting from a state in
which none of the declared names is present or dirty, it appends every
declared field with its (cloned) default and appends every declared name to
the dirty set — provided each descriptor does not consider its default equal
to the initial `undefined`. -/
theorem constructModel_loop (reg : List (String × FieldDescr)) :
    ∀ w : Wrapper,
      (∀ p ∈ reg, getEntry w.fields p.1 = none) →
      (∀ p ∈ reg, w.dirty.contains p.1 = false) →
      (reg.map Prod.fst).Nodup →
      (∀ p ∈ reg, p.2.isEqual (descrDefault p.2) Value.undef = false) →
      reg.foldl (fun w p => setterAssign p.2 w p.1 (descrDefault p.2)) w
        = { w with
            fields := w.fields ++ reg.map (fun p => (p.1, descrDefault p.2)),
            dirty := w.dirty ++ reg.map Prod.fst } := by
  induction reg with
  | nil => intro w _ _ _ _; simp
  | cons p rest ih =>
      intro w hfresh hdirty hnodup hne
      obtain ⟨n, d⟩ := p
      have hn_rest : ∀ q ∈ rest, q.1 ≠ n := by
        intro q hq hcon
        simp only [List.map_cons, List.nodup_cons] at hnodup
        exact hnodup.1 (hcon ▸ List.mem_map_of_mem Prod.fst hq)
      have hstep : setterAssign d w n (descrDefault d)
          = { w with fields := w.fields ++ [(n, descrDefault d)],
                     dirty := w.dirty ++ [n] } := by
        unfold setterAssign
        have hf : getField w.fields n = .undef := by
          unfold getField
          rw [hfresh (n, d) (by simp)]
          rfl
        rw [hf, hne (n, d) (by simp)]
        simp only [Bool.false_eq_true, if_false]
        rw [setKey_of_getEntry_none _ _ _ (hfresh (n, d) (by simp))]
        unfold dirtyAdd
        rw [hdirty (n, d) (by simp)]
        simp
      rw [List.foldl_cons, hstep]
      have hfresh' : ∀ q ∈ rest,
          getEntry (w.fields ++ [(n, descrDefault d)]) q.1 = none := by
        intro q hq
        rw [getEntry_append, hfresh q (by simp [hq])]
        simp [getEntry, Ne.symm (hn_rest q hq)]
      have hdirty' : ∀ q ∈ rest, (w.dirty ++ [n]).contains q.1 = false := by
        intro q hq
        have h1 := hdirty q (by simp [hq])
        simp at h1
        simp [h1, hn_rest q hq]
      have hnodup' : (rest.map Prod.fst).Nodup := by
        simp only [List.map_cons, List.nodup_cons] at hnodup
        exact hnodup.2
      have hne' : ∀ q ∈ rest, q.2.isEqual (descrDefault q.2) Value.undef = false := by
        intro q hq
        exact hne q (by simp [hq])
      rw [ih _ hfresh' hdirty' hnodup' hne']
      simp

/-- `arraysEqual` on cons cells is head equality and tail `arraysEqual`. -/
theorem arraysEqual_cons (x y : String) (xs ys : List String) :
    arraysEqual (x :: xs) (y :: ys) = ((x == y) && arraysEqual xs ys) := by
  by_cases hlen : xs.length = ys.length
  · simp [arraysEqual, hlen]
  · simp [arraysEqual, bne_iff_ne, hlen]

/-- `arraysEqual` is list equality. -/
theorem arraysEqual_eq_true_iff (a b : List String) :
    arraysEqual a b = true ↔ a = b := by
  induction a generalizing b with
  | nil => cases b <;> simp [arraysEqual]
  | cons x xs ih =>
      cases b with
      | nil => simp [arraysEqual]
      | cons y ys => simp [arraysEqual_cons, ih]

/-- The dictionary value-cleaning loop succeeds precisely when
`entriesCleanOk` holds. -/
theorem cleanEntries_isOk (schema : List (String × FieldDescr))
    (owner : List (String × Value)) (es : List (String × Value)) :
    isOkE (cleanEntries schema owner es) = entriesCleanOk schema owner es := by
  induction es with
  | nil => rfl
  | cons p rest ih =>
      obtain ⟨k, v⟩ := p
      have hrhs : entriesCleanOk schema owner ((k, v) :: rest)
          = ((match getEntry schema k with
              | none => false
              | some d => isOkE (d.clean owner v))
             && entriesCleanOk schema owner rest) := rfl
      rw [hrhs]
      unfold cleanEntries
      rcases hg : getEntry schema k with _ | d
      · simp [isOkE]
      · rcases hc : d.clean owner v with e | cv
        · simp [hc, isOkE]
        · rcases hr : cleanEntries schema owner rest with e | tail
          · rw [hr] at ih
            simp [hc, isOkE, ← ih]
          · rw [hr] at ih
            simp [hc, isOkE, ← ih]

/-! ### Claim theorems -/

/-- C1.  The claim states that the foreign-key `isEqual(a, b)` returns `true`
exactly when both arguments are present model instances with equal primary
keys and `false` whenever either side is absent, so that assigning an
instance with the same referenced key leaves the dirty set untouched while a
different key marks the field dirty.  The code returns the opposite: equal
keys give `false`, different keys give `true`, one absent side gives `true`
and two absent sides give `false`; consequently the setter marks a same-key
assignment dirty and silently drops a different-key assignment. -/
theorem claim_C1_fk_isEqual_inverted :
    fkIsEqual (.inst "User" (.str "k")) (.inst "User" (.str "k")) = false
    ∧ fkIsEqual (.inst "User" (.str "a")) (.inst "User" (.str "b")) = true
    ∧ fkIsEqual .null (.inst "User" (.str "k")) = true
    ∧ fkIsEqual .null .null = false
    ∧ (setterAssign exFkUser exFkWrapper "owner" (.inst "User" (.str "k"))).dirty
        = ["owner"]
    ∧ setterAssign exFkUser exFkWrapper "owner" (.inst "User" (.str "z"))
        = exFkWrapper :=
  ⟨rfl, rfl, rfl, rfl, rfl, rfl⟩

/-- C2 (counterexample).  The claim states that a forced save of an instance
already in storage issues an update whose document contains the cleaned
values of all registered fields.  Here the registered field `name` is not
dirty, the forced save issues an update, and its document contains only the
three bookkeeping fields — `name` is absent. -/
theorem claim_C2_counterexample :
    (saveRun exReg exSaved true (.date 20) []).2.1
        = some (SaveEffect.updateReq (.str "i1") exForcedDoc)
    ∧ (exReg "name").isSome = true
    ∧ getEntry exForcedDoc "name" = none :=
  ⟨rfl, rfl, rfl⟩

/-- C2 (amended).  For an instance already in storage, save with `force=true`
always issues an update, but its document is the dirty-only serialization:
every key that is neither dirty nor one of the three bookkeeping fields is
absent from the document.  `force` only bypasses the dirty check; it does not
widen the document to all registered fields. -/
theorem claim_C2_forced_update_dirty_only (reg : Registry) (w : Wrapper)
    (now : Value) (meta : List (String × Value)) (doc : List (String × Value))
    (hIn : isInDB w = true)
    (hDoc : toDocument reg w true now = .ok doc) :
    (saveRun reg w true now meta).2.1
        = some (SaveEffect.updateReq (getField w.fields "_id") doc)
    ∧ ∀ k, w.dirty.contains k = false → k ≠ "_dbLastUpdateTime" →
        k ≠ "_dbCreationTime" → k ≠ "_dbObjectVersion" →
        getEntry doc k = none := by
  constructor
  · unfold saveRun
    rw [hIn, hDoc]
    simp
  · intro k hk h1 h2 h3
    exact toDocument_dirtyOnly_not_mem reg w now doc k hDoc hk h1 h2 h3

/-- C2 (witness).  The amended theorem at the concrete instance `exSaved`:
the forced save issues an update and the registered field `name` is absent
from its document. -/
theorem claim_C2_witness :
    (saveRun exReg exSaved true (.date 20) []).2.1
        = some (SaveEffect.updateReq (.str "i1") exForcedDoc)
    ∧ getEntry exForcedDoc "name" = none := by
  have h := claim_C2_forced_update_dirty_only exReg exSaved (.date 20) []
    exForcedDoc rfl rfl
  exact ⟨h.1.trans rfl, h.2 "name" rfl (by decide) (by decide) (by decide)⟩

/-- C3.  The claim states that each successful save increments the persisted
`_dbObjectVersion` by exactly 1, so the n-th save persists version n.  In the
code, `_afterSaveToDB` mirrors the bookkeeping fields from the storage
driver's result object — which does not carry them — so the local version
resets to `undefined` after every save and each subsequent document is
stamped with version `(undefined || 0) + 1 = 1`: both the first and the
second save here persist version 1. -/
theorem claim_C3_version_not_incremented :
    (effectDoc (saveRun exReg exFresh false (.date 100) exMeta).2.1).map
        (fun d => getField d "_dbObjectVersion") = some (.num 1)
    ∧ (effectDoc (saveRun exReg
          ((saveRun exReg exFresh false (.date 100) exMeta).1) true
          (.date 200) exMeta).2.1).map
        (fun d => getField d "_dbObjectVersion") = some (.num 1) :=
  ⟨rfl, rfl⟩

/-- C4 (counterexample).  The claim states that immediately after
construction every registered field holds its descriptor default and the
dirty set is empty.  For this two-field model the fields do hold their
defaults, but both names are in the dirty set and `isDirty` is `true`: the
constructor assigns the defaults through the generated setters, which compare
them against the initial `undefined` and mark them dirty. -/
theorem claim_C4_counterexample :
    (constructModel exRegPair).fields = [("data", Value.null), ("name", Value.str "")]
    ∧ (constructModel exRegPair).dirty = ["data", "name"]
    ∧ isDirty (constructModel exRegPair) = true :=
  ⟨rfl, rfl, rfl⟩

/-- C4 (amended).  After construction every registered field holds its
descriptor default, and — because each assignment runs through the generated
setter, whose `isEqual` test compares the default against the initial
`undefined` and fails for every built-in descriptor default — the dirty set
contains exactly the registered field names, so a freshly constructed
instance with at least one field is dirty. -/
theorem claim_C4_construction_marks_defaults_dirty
    (reg : List (String × FieldDescr))
    (hnodup : (reg.map Prod.fst).Nodup)
    (hne : ∀ p ∈ reg, p.2.isEqual (descrDefault p.2) Value.undef = false) :
    (constructModel reg).fields = reg.map (fun p => (p.1, descrDefault p.2))
    ∧ (constructModel reg).dirty = reg.map Prod.fst
    ∧ (reg ≠ [] → isDirty (constructModel reg) = true) := by
  have h := constructModel_loop reg initWrapper (by intro p _; rfl)
    (by intro p _; rfl) hnodup hne
  unfold constructModel
  rw [h]
  refine ⟨by simp [initWrapper], by simp [initWrapper], ?_⟩
  intro hne'
  cases reg with
  | nil => exact absurd rfl hne'
  | cons p rest => simp [initWrapper, isDirty]

/-- C4 (witness).  The amended theorem at the concrete two-field model:
fields hold their defaults and both names are dirty. -/
theorem claim_C4_witness :
    (constructModel exRegPair).fields = [("data", Value.null), ("name", Value.str "")]
    ∧ (constructModel exRegPair).dirty = ["data", "name"]
    ∧ isDirty (constructModel exRegPair) = true := by
  have h := claim_C4_construction_marks_defaults_dirty exRegPair (by decide)
    (by
      intro p hp
      simp [exRegPair] at hp
      rcases hp with rfl | rfl <;> rfl)
  exact ⟨h.1.trans rfl, h.2.1.trans rfl, h.2.2 (by simp [exRegPair])⟩

/-- C5.  The claim states that every descriptor variant with
`canBeNull=true` accepts `null` from `clean` and returns it (date with
`autoNow` excepted).  The email, list and dictionary variants reject `null`:
the email field's own null handling happens in the inherited string clean,
after which the pattern test is unconditionally applied to the passed-through
`null` (coerced to the string `"null"`) and fails; the list clean has no null
handling and rejects `null` as a non-array; the dictionary clean reads
`null.constructor`, a `TypeError`.  For contrast, the string and foreign-key
variants do pass `null` through as the claim describes. -/
theorem claim_C5_null_rejected_variants :
    emailClean { canBeNull := true } [] .null
        = .error "Invalid email value null: not a valid email pattern."
    ∧ listClean {} [] .null = .error "Invalid list value null: not a list."
    ∧ dictionaryClean {} [] .null
        = .error "TypeError: cannot read constructor of null"
    ∧ stringClean { canBeNull := true } [] .null = .ok .null
    ∧ fkClean { model := "User", canBeNull := true } [] .null = .ok .null :=
  ⟨rfl, rfl, rfl, rfl, rfl⟩

/-- C6 (counterexample).  The claim states that the key comparison against a
dictionary schema is order-insensitive set equality, so a mapping with
exactly the schema's keys in a different enumeration order is accepted.  For
the schema with keys `a`, `b` (in this order), the value with the same keys
enumerated as `b`, `a` is rejected, while the same entries in schema order
are accepted: the comparison is order-sensitive. -/
theorem claim_C6_counterexample :
    dictionaryClean exDictCfg [] (.dict [("b", .str "x"), ("a", .num 1)])
        = .error "Invalid dictionary value: value keys do not match schema."
    ∧ dictionaryClean exDictCfg [] (.dict [("a", .num 1), ("b", .str "x")])
        = .ok (.dict [("a", .num 1), ("b", .str "x")]) :=
  ⟨rfl, rfl⟩

/-- C6 (amended).  For a dictionary field with a schema, `clean` succeeds on
a mapping exactly when the mapping's key sequence, in enumeration order,
equals the schema's key sequence and every entry's value is accepted by its
schema descriptor; any missing key, extra key, or reordering of keys makes
cleaning fail, and every non-mapping value is rejected. -/
theorem claim_C6_schema_key_order_sensitive
    (schema : List (String × FieldDescr)) (owner : List (String × Value)) :
    (∀ entries : List (String × Value),
      isOkE (dictionaryClean { schema := some schema } owner (.dict entries)) = true
        ↔ (entries.map Prod.fst = schema.map Prod.fst
            ∧ entriesCleanOk schema owner entries = true))
    ∧ ∀ v : Value, (∀ es, v ≠ .dict es) →
        isOkE (dictionaryClean { schema := some schema } owner v) = false := by
  constructor
  · intro entries
    by_cases ha : entries.map Prod.fst = schema.map Prod.fst
    · have ha' : arraysEqual (entries.map Prod.fst) (schema.map Prod.fst) = true :=
        (arraysEqual_eq_true_iff _ _).mpr ha
      have harefl : arraysEqual (schema.map Prod.fst) (schema.map Prod.fst) = true :=
        (arraysEqual_eq_true_iff _ _).mpr rfl
      have hok := cleanEntries_isOk schema owner entries
      rcases hce : cleanEntries schema owner entries with e | nd
      · rw [hce] at hok
        simp [dictionaryClean, baseClean, ha', harefl, hce, isOkE, ha, ← hok]
      · rw [hce] at hok
        simp [dictionaryClean, baseClean, ha', harefl, hce, isOkE, ha, ← hok]
    · have ha' : arraysEqual (entries.map Prod.fst) (schema.map Prod.fst) = false := by
        have : ¬ arraysEqual (entries.map Prod.fst) (schema.map Prod.fst) = true :=
          fun hcon => ha ((arraysEqual_eq_true_iff _ _).mp hcon)
        exact eq_false_of_ne_true this
      simp [dictionaryClean, baseClean, ha', isOkE, ha]
  · intro v hv
    cases v with
    | undef => simp [dictionaryClean, baseClean, isOkE]
    | null => simp [dictionaryClean, baseClean, isOkE]
    | bool b => simp [dictionaryClean, baseClean, isOkE]
    | num n => simp [dictionaryClean, baseClean, isOkE]
    | str s => simp [dictionaryClean, baseClean, isOkE]
    | date t => simp [dictionaryClean, baseClean, isOkE]
    | list xs => simp [dictionaryClean, baseClean, isOkE]
    | dict es => exact absurd rfl (hv es)
    | inst c i => simp [dictionaryClean, baseClean, isOkE]

/-- C6 (witness).  The amended theorem at the concrete schema `a`, `b`: the
in-order mapping is accepted and a non-mapping value is rejected. -/
theorem claim_C6_witness :
    isOkE (dictionaryClean exDictCfg [] (.dict [("a", .num 1), ("b", .str "x")])) = true
    ∧ isOkE (dictionaryClean exDictCfg [] (.num 3)) = false := by
  have h := claim_C6_schema_key_order_sensitive exSchemaAB []
  exact ⟨(h.1 [("a", .num 1), ("b", .str "x")]).mpr ⟨rfl, rfl⟩,
    h.2 (.num 3) (fun es hcon => Value.noConfusion hcon)⟩

/-- C7.  For every instance already in storage with an empty dirty set and no
force flag, `save` issues no storage request at all; and for every instance
not yet in storage whose first save issues an insert, a second save with no
intervening mutation issues no request — the first call writes, the second is
a no-op. -/
theorem claim_C7_no_write_when_clean (reg : Registry) (w : Wrapper)
    (now : Value) (meta : List (String × Value))
    (hIn : isInDB w = true) (hnd : isDirty w = false) :
    saveRun reg w false now meta = (w, none, none)
    ∧ ∀ (w2 : Wrapper) (now2 : Value) (meta2 : List (String × Value))
        (doc : List (String × Value)) (now3 : Value) (meta3 : List (String × Value)),
        isInDB w2 = false →
        (saveRun reg w2 false now2 meta2).2.1 = some (SaveEffect.insertReq doc) →
        saveRun reg ((saveRun reg w2 false now2 meta2).1) false now3 meta3
          = ((saveRun reg w2 false now2 meta2).1, none, none) := by
  constructor
  · unfold saveRun
    rw [hIn, hnd]
    simp
  · intro w2 now2 meta2 doc now3 meta3 hIn2 hins
    rcases hd : toDocument reg w2 false now2 with e | doc2
    · unfold saveRun at hins
      rw [hIn2] at hins
      simp only [Bool.false_eq_true, if_false] at hins
      rw [hd] at hins
      simp at hins
    · have hpost : (saveRun reg w2 false now2 meta2).1 = afterSaveToDB w2 meta2 := by
        unfold saveRun
        rw [hIn2]
        simp only [Bool.false_eq_true, if_false]
        rw [hd]
      rw [hpost]
      have h1 : isInDB (afterSaveToDB w2 meta2) = true := by
        unfold afterSaveToDB isInDB
        simp
      have h2 : isDirty (afterSaveToDB w2 meta2) = false := by
        unfold afterSaveToDB isDirty
        simp
      unfold saveRun
      rw [h1, h2]
      simp

/-- C7 (witness).  The theorem at concrete instances: a clean in-storage
wrapper's save issues nothing, and after a fresh wrapper's insert completes,
its second unforced save issues nothing. -/
theorem claim_C7_witness :
    saveRun exReg exSaved false (.date 1) [] = (exSaved, none, none)
    ∧ saveRun exReg (saveRun exReg exFresh false (.date 100) exMeta).1 false
        (.date 2) []
        = ((saveRun exReg exFresh false (.date 100) exMeta).1, none, none) := by
  have h := claim_C7_no_write_when_clean exReg exSaved (.date 1) [] rfl rfl
  exact ⟨h.1, h.2 exFresh (.date 100) exMeta exInsertDoc (.date 2) [] rfl rfl⟩

/-- C8.  If a field's `clean` raises during serialization, `save` fails
synchronously with that error before any storage request is issued (neither
an insert nor an update), and the wrapper — field values and dirty set — is
returned unchanged: all save-path mutation lives in the success continuation,
which never runs.  The hypothesis covers both branches: a not-in-storage
instance always serializes, and an in-storage instance serializes whenever
forced or dirty. -/
theorem claim_C8_clean_failure_aborts_save (reg : Registry) (w : Wrapper)
    (now : Value) (meta : List (String × Value)) (force : Bool) (e : String)
    (hbr : isInDB w = false ∨ (force || isDirty w) = true)
    (h : toDocument reg w (isInDB w) now = Except.error e) :
    saveRun reg w force now meta = (w, none, some e) := by
  cases hin : isInDB w with
  | false =>
      rw [hin] at h
      unfold saveRun
      rw [hin]
      simp only [Bool.false_eq_true, if_false]
      rw [h]
  | true =>
      rw [hin] at h
      have hcond : (force || isDirty w) = true := by
        rcases hbr with hl | hr
        · rw [hin] at hl
          exact absurd hl (by simp)
        · exact hr
      unfold saveRun
      rw [hin, hcond]
      simp only [if_true]
      rw [h]

/-- C8 (witness).  The theorem at a concrete instance whose bounded string
field rejects its current value: the save returns the validation error, the
wrapper is unchanged, and no request was issued. -/
theorem claim_C8_witness :
    saveRun exRegMax exTooLong true (.date 1) [] = (exTooLong, none, some exLenErr) := by
  have h := claim_C8_clean_failure_aborts_save exRegMax exTooLong (.date 1) []
    true exLenErr (Or.inl rfl) rfl
  exact h

/-- C9.  The claim states that the one-shot `onLoaded` callback fires exactly
once, on the first successful hydration.  In the code the hydration handler
guards on the property `this.onFirstLoad`, which is not defined on the
wrapper (the stored member is `_onFirstLoad`, exposed as `onLoaded`), so the
guard reads `undefined` and a callback registered before the first load never
fires — neither on the first hydration nor on any later one. -/
theorem claim_C9_onLoaded_never_fires :
    (afterLoadFromDB (setOnLoaded initWrapper 7) (.date 1)).fired = []
    ∧ (afterLoadFromDB (setOnLoaded initWrapper 7) (.date 1)).isLoadedFromDB = true
    ∧ (afterLoadFromDB (afterLoadFromDB (setOnLoaded initWrapper 7) (.date 1))
        (.date 2)).fired = [] :=
  ⟨rfl, rfl, rfl⟩

/-- C10.  A successful instance-level `delete` changes none of the wrapper's
state — the post-delete wrapper equals the pre-delete wrapper, so `isInDB`
stays `true` — and any subsequent save on it can never issue an insert
request: with `isInDB` true, save takes the update (or skip) path only. -/
theorem claim_C10_delete_preserves_wrapper (w : Wrapper) (hIn : isInDB w = true) :
    (deleteRun w).1 = w
    ∧ isInDB (deleteRun w).1 = true
    ∧ ∀ (reg : Registry) (force : Bool) (now : Value)
        (meta : List (String × Value)) (doc : List (String × Value)),
        (saveRun reg (deleteRun w).1 force now meta).2.1
          ≠ some (SaveEffect.insertReq doc) := by
  refine ⟨rfl, hIn, ?_⟩
  intro reg force now meta doc hcon
  have hthis : (saveRun reg w force now meta).2.1 = some (SaveEffect.insertReq doc) :=
    hcon
  unfold saveRun at hthis
  rw [hIn] at hthis
  simp only [if_true] at hthis
  by_cases hf : (force || isDirty w) = true
  · rw [hf] at hthis
    simp only [if_true] at hthis
    rcases hd : toDocument reg w true now with e | doc2
    · rw [hd] at hthis
      simp at hthis
    · rw [hd] at hthis
      simp at hthis
  · have hf' := eq_false_of_ne_true hf
    rw [hf'] at hthis
    simp at hthis

/-- C10 (witness).  The theorem at the concrete in-storage wrapper
`exSaved`. -/
theorem claim_C10_witness :
    (deleteRun exSaved).1 = exSaved
    ∧ isInDB (deleteRun exSaved).1 = true
    ∧ (saveRun exReg (deleteRun exSaved).1 true (.date 20) []).2.1
        ≠ some (SaveEffect.insertReq exForcedDoc) := by
  have h := claim_C10_delete_preserves_wrapper exSaved rfl
  exact ⟨h.1, h.2.1, h.2.2 exReg true (.date 20) [] exForcedDoc⟩

end Mongore
